import Mathlib

/-!
Verification of the bridge core: a shallow embedding of the session-log
replay engine, the command envelope parser, the permission negotiation
functions and the usage accounting function, together with theorems about
their behaviour. JavaScript numbers are modelled as rationals, JavaScript
strings as Lean strings (sequences of Unicode code points, matching what
the code observes through Array.from), and JSON values as an inductive
type. Absent object fields are modelled as `Option.none` (the JS
`undefined`), while JSON `null` is a value of its own.
-/

set_option maxRecDepth 4000

/-- A JSON value as produced by JSON.parse. Objects keep field order. -/
inductive JsonValue where
  | null
  | bool (b : Bool)
  | num (q : ℚ)
  | str (s : String)
  | arr (elems : List JsonValue)
  | obj (fields : List (String × JsonValue))

/-- A plain JSON object: an ordered association list of fields. -/
abbrev JRecord := List (String × JsonValue)

/-- Field access on an object, modelling `record[key]`; `none` is the JS undefined. -/
def lookupField (r : JRecord) (k : String) : Option JsonValue :=
  (r.find? (fun p => p.1 == k)).map (fun p => p.2)

/-- Modelled from the spec: the `asRecordOrNull` helper from the shared
module (its source file is not provided); it narrows an arbitrary value to
a plain (non-null, non-array) object and yields null otherwise. -/
def asRecordOrNull : JsonValue → Option JRecord
  | .obj fields => some fields
  | _ => none

/-- Variant of `asRecordOrNull` applied to a possibly-absent value. -/
def asRecordOrNullOpt (v : Option JsonValue) : Option JRecord :=
  v.bind asRecordOrNull

/-- JavaScript truthiness of a possibly-absent JSON value, as used by
`Boolean(block.is_error)` and conditional checks. -/
def jsTruthy : Option JsonValue → Bool
  | none => false
  | some .null => false
  | some (.bool b) => b
  | some (.num q) => q != 0
  | some (.str s) => s != ""
  | some (.arr _) => true
  | some (.obj _) => true

/-- The four JSON whitespace characters. -/
def isJsonWs (c : Char) : Bool :=
  c == ' ' || c == '\t' || c == '\n' || c == '\r'

/-- Skip leading JSON whitespace. -/
def skipJsonWs : List Char → List Char
  | [] => []
  | c :: rest => if isJsonWs c then skipJsonWs rest else c :: rest

/-- Numeric value of a hexadecimal digit. -/
def hexDigitValue (c : Char) : Option Nat :=
  if '0' ≤ c ∧ c ≤ '9' then some (c.toNat - '0'.toNat)
  else if 'a' ≤ c ∧ c ≤ 'f' then some (c.toNat - 'a'.toNat + 10)
  else if 'A' ≤ c ∧ c ≤ 'F' then some (c.toNat - 'A'.toNat + 10)
  else none

/-- Parse the body of a JSON string after the opening quote, returning the
decoded characters and the remainder after the closing quote. -/
def parseJsonStringChars : Nat → List Char → Option (List Char × List Char)
  | 0, _ => none
  | _, [] => none
  | fuel+1, c :: rest =>
    if c = '"' then some ([], rest)
    else if c = '\\' then
      match rest with
      | [] => none
      | e :: rest2 =>
        let esc : Option (Char × List Char) :=
          if e = '"' then some ('"', rest2)
          else if e = '\\' then some ('\\', rest2)
          else if e = '/' then some ('/', rest2)
          else if e = 'b' then some ('\x08', rest2)
          else if e = 'f' then some ('\x0c', rest2)
          else if e = 'n' then some ('\n', rest2)
          else if e = 'r' then some ('\r', rest2)
          else if e = 't' then some ('\t', rest2)
          else if e = 'u' then
            match rest2 with
            | h1 :: h2 :: h3 :: h4 :: rest3 =>
              match hexDigitValue h1, hexDigitValue h2, hexDigitValue h3, hexDigitValue h4 with
              | some a, some b, some c2, some d =>
                some (Char.ofNat (((a * 16 + b) * 16 + c2) * 16 + d), rest3)
              | _, _, _, _ => none
            | _ => none
          else none
        match esc with
        | some (ch, rem) => (parseJsonStringChars fuel rem).map (fun p => (ch :: p.1, p.2))
        | none => none
    else if c.toNat < 0x20 then none
    else (parseJsonStringChars fuel rest).map (fun p => (c :: p.1, p.2))

/-- Decimal digits to a natural number. -/
def digitsToNat (ds : List Char) : Nat :=
  ds.foldl (fun acc c => acc * 10 + (c.toNat - '0'.toNat)) 0

/-- Parse a JSON number (integer part, optional fraction, optional exponent). -/
def parseJsonNumber (cs : List Char) : Option (ℚ × List Char) :=
  let signSplit : Bool × List Char :=
    match cs with
    | '-' :: r => (true, r)
    | _ => (false, cs)
  let neg := signSplit.1
  let intSplit := signSplit.2.span (fun c => c.isDigit)
  if intSplit.1.isEmpty then none
  else
    let ip : ℚ := (digitsToNat intSplit.1 : ℚ)
    let fracStep : Option (ℚ × List Char) :=
      match intSplit.2 with
      | '.' :: r =>
        let fracSplit := r.span (fun c => c.isDigit)
        if fracSplit.1.isEmpty then none
        else some ((digitsToNat fracSplit.1 : ℚ) / ((10 : ℚ) ^ fracSplit.1.length), fracSplit.2)
      | _ => some (0, intSplit.2)
    match fracStep with
    | none => none
    | some (fr, cs3) =>
      let expStep : Option (Int × List Char) :=
        match cs3 with
        | e :: r =>
          if e = 'e' ∨ e = 'E' then
            let signSplitE : Bool × List Char :=
              match r with
              | '+' :: rr => (false, rr)
              | '-' :: rr => (true, rr)
              | _ => (false, r)
            let expSplit := signSplitE.2.span (fun c => c.isDigit)
            if expSplit.1.isEmpty then none
            else
              some ((if signSplitE.1 then -(digitsToNat expSplit.1 : Int)
                     else (digitsToNat expSplit.1 : Int)), expSplit.2)
          else some (0, cs3)
        | [] => some (0, cs3)
      match expStep with
      | none => none
      | some (ex, cs4) =>
        let mag : ℚ := (ip + fr) * ((10 : ℚ) ^ ex)
        some (if neg then -mag else mag, cs4)

/-- Insert a field into an object under construction: a duplicate key
overwrites the earlier value in place, as JSON.parse does. -/
def insertJsonField : List (String × JsonValue) → String → JsonValue → List (String × JsonValue)
  | [], k, v => [(k, v)]
  | (k0, v0) :: rest, k, v =>
    if k0 = k then (k0, v) :: rest else (k0, v0) :: insertJsonField rest k v

mutual

/-- Parse one JSON value, fuel-bounded. -/
def parseJsonValue : Nat → List Char → Option (JsonValue × List Char)
  | 0, _ => none
  | fuel+1, cs =>
    match skipJsonWs cs with
    | 'n' :: 'u' :: 'l' :: 'l' :: rest => some (.null, rest)
    | 't' :: 'r' :: 'u' :: 'e' :: rest => some (.bool true, rest)
    | 'f' :: 'a' :: 'l' :: 's' :: 'e' :: rest => some (.bool false, rest)
    | '"' :: rest =>
      (parseJsonStringChars (rest.length + 1) rest).map
        (fun p => (.str (String.mk p.1), p.2))
    | '[' :: rest =>
      (match skipJsonWs rest with
       | ']' :: r2 => some (.arr [], r2)
       | other => parseJsonArrayRest fuel other [])
    | '{' :: rest =>
      (match skipJsonWs rest with
       | '}' :: r2 => some (.obj [], r2)
       | other => parseJsonObjectRest fuel other [])
    | other => (parseJsonNumber other).map (fun p => (.num p.1, p.2))

/-- Parse the elements of a non-empty JSON array. -/
def parseJsonArrayRest : Nat → List Char → List JsonValue → Option (JsonValue × List Char)
  | 0, _, _ => none
  | fuel+1, cs, acc =>
    match parseJsonValue fuel cs with
    | none => none
    | some (v, rest) =>
      match skipJsonWs rest with
      | ',' :: r2 => parseJsonArrayRest fuel r2 (acc ++ [v])
      | ']' :: r2 => some (.arr (acc ++ [v]), r2)
      | _ => none

/-- Parse the members of a non-empty JSON object. -/
def parseJsonObjectRest : Nat → List Char → List (String × JsonValue) → Option (JsonValue × List Char)
  | 0, _, _ => none
  | fuel+1, cs, acc =>
    match skipJsonWs cs with
    | '"' :: rest =>
      (match parseJsonStringChars (rest.length + 1) rest with
       | none => none
       | some (kcs, r1) =>
         match skipJsonWs r1 with
         | ':' :: r2 =>
           (match parseJsonValue fuel r2 with
            | none => none
            | some (v, r3) =>
              let acc2 := insertJsonField acc (String.mk kcs) v
              match skipJsonWs r3 with
              | ',' :: r4 => parseJsonObjectRest fuel r4 acc2
              | '}' :: r4 => some (.obj acc2, r4)
              | _ => none)
         | _ => none)
    | _ => none

end

/-- Model of JSON.parse: parse a whole string as one JSON value, rejecting
trailing garbage; `none` models the thrown SyntaxError. -/
def parseJson (s : String) : Option JsonValue :=
  match parseJsonValue (s.data.length + 1) s.data with
  | some (v, rest) => if (skipJsonWs rest).isEmpty then some v else none
  | none => none

/-! ### Data model

Modelled from the spec: the SessionUpdate, ToolCall and related types live
in the types module, whose source is not provided; the shapes below follow
the data model section of the spec (role-tagged text chunks carry their
text, a tool call update carries the referenced id and the partial
fields). Emitted updates are modelled as immutable snapshots. -/

/-- Lifecycle status of a tool call. -/
inductive ToolStatus where
  | pending
  | in_progress
  | completed
  | error
deriving DecidableEq

/-- Modelled from the spec: a tool call record owned by the replay lookup
table. -/
structure ToolCall where
  id : String
  name : String
  input : JRecord
  status : ToolStatus
  raw_output : Option JsonValue
  content : Option JsonValue

/-- Modelled from the spec: the partial fields carried by a tool call
update (status, raw output, content), each possibly absent. -/
structure ToolResultFields where
  status : Option ToolStatus
  raw_output : Option JsonValue
  content : Option JsonValue

/-- Usage metrics carried by a usage update; absent fields are `none`. -/
structure UsageFields where
  input_tokens : Option ℚ
  output_tokens : Option ℚ
  cache_read_tokens : Option ℚ
  cache_write_tokens : Option ℚ
  total_cost_usd : Option ℚ
  turn_cost_usd : Option ℚ
  context_window : Option ℚ
  max_output_tokens : Option ℚ

/-- Modelled from the spec: the tagged SessionUpdate union consumed by the
host; a message chunk update carries its text content. -/
inductive SessionUpdate where
  | user_message_chunk (text : String)
  | agent_message_chunk (text : String)
  | tool_call (tc : ToolCall)
  | tool_call_update (tool_call_id : String) (fields : ToolResultFields)
  | usage_update (usage : UsageFields)

/-! ### Usage accounting (usage module) -/

/-- Running per-session usage state. -/
structure UsageSessionContext where
  model : Option String
  lastTotalCostUsd : Option ℚ

/-- First key in the list whose value in the record is a number; models the
variadic `numberField` helper (JSON numbers are always finite). -/
def numberField (record : JRecord) : List String → Option ℚ
  | [] => none
  | k :: rest =>
    match lookupField record k with
    | some (.num q) => some q
    | _ => numberField record rest

/-- Insert a string into a sorted list of strings. -/
def insertSortedString (s : String) : List String → List String
  | [] => [s]
  | t :: rest => if s ≤ t then s :: t :: rest else t :: insertSortedString s rest

/-- Sort strings lexicographically, modelling `Object.keys(x).sort()`. -/
def sortStrings : List String → List String
  | [] => []
  | s :: rest => insertSortedString s (sortStrings rest)

/-- First key whose value is a plain object. -/
def firstUsableModelRecord (modelUsageRaw : JRecord) : List String → Option JRecord
  | [] => none
  | k :: rest =>
    match asRecordOrNullOpt (lookupField modelUsageRaw k) with
    | some r => some r
    | none => firstUsableModelRecord modelUsageRaw rest

/-- Select the per-model usage record: prefer the session model when set
and non-empty, then the message model, then the lexicographically smallest
usable key. -/
def selectModelUsageRecord (session : Option UsageSessionContext) (message : JRecord) :
    Option JRecord :=
  match asRecordOrNullOpt (lookupField message "modelUsage") with
  | none => none
  | some modelUsageRaw =>
    let sortedKeys := sortStrings (modelUsageRaw.map (fun p => p.1))
    if sortedKeys.isEmpty then none
    else
      let p1 : Option String :=
        match session with
        | some s =>
          (match s.model with
           | some m => if m = "" then none else some m
           | none => none)
        | none => none
      let preferredKeys : List String :=
        p1.toList ++
          (match lookupField message "model" with
           | some (.str m) => if p1 = some m then [] else [m]
           | _ => [])
      match firstUsableModelRecord modelUsageRaw preferredKeys with
      | some r => some r
      | none => firstUsableModelRecord modelUsageRaw sortedKeys

/-- Turn a raw result message plus optional running session state into a
usage update; the second component is the updated session state (the
source mutates the context in place). -/
def buildUsageUpdateFromResultForSession (session : Option UsageSessionContext)
    (message : JRecord) : Option SessionUpdate × Option UsageSessionContext :=
  let usage := asRecordOrNullOpt (lookupField message "usage")
  let inputTokens := usage.bind (fun u => numberField u ["inputTokens", "input_tokens"])
  let outputTokens := usage.bind (fun u => numberField u ["outputTokens", "output_tokens"])
  let cacheReadTokens := usage.bind (fun u =>
    numberField u ["cacheReadInputTokens", "cache_read_input_tokens", "cache_read_tokens"])
  let cacheWriteTokens := usage.bind (fun u =>
    numberField u ["cacheCreationInputTokens", "cache_creation_input_tokens", "cache_write_tokens"])
  let totalCostUsd := numberField message ["total_cost_usd", "totalCostUsd"]
  let costStep : Option ℚ × Option UsageSessionContext :=
    match totalCostUsd, session with
    | some t, some ctx =>
      (some (match ctx.lastTotalCostUsd with
             | none => t
             | some l => max 0 (t - l)),
       some { ctx with lastTotalCostUsd := some t })
    | _, _ => (none, session)
  let turnCostUsd := costStep.1
  let session2 := costStep.2
  let modelUsage := selectModelUsageRecord session message
  let contextWindow := modelUsage.bind (fun m => numberField m ["contextWindow", "context_window"])
  let maxOutputTokens := modelUsage.bind (fun m =>
    numberField m ["maxOutputTokens", "max_output_tokens"])
  if inputTokens = none ∧ outputTokens = none ∧ cacheReadTokens = none ∧
     cacheWriteTokens = none ∧ totalCostUsd = none ∧ turnCostUsd = none ∧
     contextWindow = none ∧ maxOutputTokens = none then
    (none, session2)
  else
    (some (.usage_update
      { input_tokens := inputTokens
        output_tokens := outputTokens
        cache_read_tokens := cacheReadTokens
        cache_write_tokens := cacheWriteTokens
        total_cost_usd := totalCostUsd
        turn_cost_usd := turnCostUsd
        context_window := contextWindow
        max_output_tokens := maxOutputTokens }), session2)

/-- Usage update with no session context. -/
def buildUsageUpdateFromResult (message : JRecord) : Option SessionUpdate :=
  (buildUsageUpdateFromResultForSession none message).1

/-! ### Permission negotiation (permissions module) -/

/-- A rule value: a tool name with optional rule content. -/
structure PermissionRuleValue where
  toolName : String
  ruleContent : Option String
deriving DecidableEq

/-- A permission rule suggestion, tagged by kind; every variant carries a
destination. -/
inductive PermissionUpdate where
  | addRules (rules : List PermissionRuleValue) (behavior : String) (destination : String)
  | replaceRules (rules : List PermissionRuleValue) (behavior : String) (destination : String)
  | removeRules (rules : List PermissionRuleValue) (behavior : String) (destination : String)
  | setMode (mode : String) (destination : String)
  | addDirectories (directories : List String) (destination : String)
deriving DecidableEq

/-- The destination field shared by every suggestion variant. -/
def PermissionUpdate.destination : PermissionUpdate → String
  | .addRules _ _ d => d
  | .replaceRules _ _ d => d
  | .removeRules _ _ d => d
  | .setMode _ d => d
  | .addDirectories _ d => d

def SESSION_PERMISSION_DESTINATIONS : List String := ["session", "cliArg"]

def PERSISTENT_PERMISSION_DESTINATIONS : List String :=
  ["userSettings", "projectSettings", "localSettings"]

/-- Suggestions partitioned into session-scoped and persistent-scoped. -/
structure PermissionSuggestionsByScope where
  session : List PermissionUpdate
  persistent : List PermissionUpdate

/-- Classification loop of `splitPermissionSuggestionsByScope`: a known
session destination or any unrecognized destination goes to the session
bucket, a known persistent destination to the persistent bucket. -/
def splitPermissionLoop : List PermissionUpdate → PermissionSuggestionsByScope
  | [] => ⟨[], []⟩
  | s :: rest =>
    let r := splitPermissionLoop rest
    if SESSION_PERMISSION_DESTINATIONS.contains s.destination then
      ⟨s :: r.session, r.persistent⟩
    else if PERSISTENT_PERMISSION_DESTINATIONS.contains s.destination then
      ⟨r.session, s :: r.persistent⟩
    else ⟨s :: r.session, r.persistent⟩

/-- Partition suggestions by destination scope; absent or empty input
yields two empty buckets. -/
def splitPermissionSuggestionsByScope (suggestions : Option (List PermissionUpdate)) :
    PermissionSuggestionsByScope :=
  match suggestions with
  | none => ⟨[], []⟩
  | some l => if l.isEmpty then ⟨[], []⟩ else splitPermissionLoop l

/-- A menu entry offered to the host. -/
structure PermissionOption where
  option_id : String
  name : String
  kind : String
deriving DecidableEq

/-- Build the 3-entry option menu from the scoped suggestions. -/
def permissionOptionsFromSuggestions (suggestions : Option (List PermissionUpdate)) :
    List PermissionOption :=
  let scopedSuggestions := splitPermissionSuggestionsByScope suggestions
  let hasSessionScoped := scopedSuggestions.session.length > 0
  let hasPersistentScoped := scopedSuggestions.persistent.length > 0
  let sessionOnly := hasSessionScoped && !hasPersistentScoped
  [⟨"allow_once", "Allow once", "allow_once"⟩,
   ⟨if sessionOnly then "allow_session" else "allow_always",
    if sessionOnly then "Allow for session" else "Always allow",
    if sessionOnly then "allow_session" else "allow_always"⟩,
   ⟨"reject_once", "Deny", "reject_once"⟩]

/-- A terminal user decision on one permission prompt. -/
inductive PermissionOutcome where
  | selected (option_id : String)
  | cancelled
deriving DecidableEq

/-- The resolved decision returned to the agent engine; an allow result
optionally carries attached rule updates. -/
inductive PermissionResult where
  | allow (updatedInput : JRecord) (updatedPermissions : Option (List PermissionUpdate))
      (toolUseID : String)
  | deny (message : String) (toolUseID : String)

/-- Map an outcome and option id to an allow or deny result, attaching
scope-appropriate suggestions (with a synthesized session fallback rule
when a non-empty tool name is known). -/
def permissionResultFromOutcome (outcome : PermissionOutcome) (toolCallId : String)
    (inputData : JRecord) (suggestions : Option (List PermissionUpdate))
    (toolName : Option String) : PermissionResult :=
  let scopedSuggestions := splitPermissionSuggestionsByScope suggestions
  match outcome with
  | .selected optionId =>
    if optionId = "allow_once" then
      .allow inputData none toolCallId
    else if optionId = "allow_session" then
      let sessionSuggestions := scopedSuggestions.session
      let fallbackSuggestions : Option (List PermissionUpdate) :=
        if sessionSuggestions.length > 0 then some sessionSuggestions
        else
          match toolName with
          | some n =>
            if n = "" then none
            else some [.addRules [⟨n, none⟩] "allow" "session"]
          | none => none
      match fallbackSuggestions with
      | some l =>
        if l.length > 0 then .allow inputData (some l) toolCallId
        else .allow inputData none toolCallId
      | none => .allow inputData none toolCallId
    else if optionId = "allow_always" then
      if scopedSuggestions.persistent.length > 0 then
        .allow inputData (some scopedSuggestions.persistent) toolCallId
      else .allow inputData none toolCallId
    else .deny "Permission denied" toolCallId
  | .cancelled => .deny "Permission cancelled" toolCallId

/-! ### Command envelope parser (commands module) -/

/-- One prompt chunk: a kind tag plus an arbitrary JSON value. -/
structure PromptChunk where
  kind : String
  value : JsonValue

/-- The tagged command union over the ten command kinds; `init` stands for
the command whose wire tag is the string "initialize" (that tag cannot be
used as a Lean constructor name). -/
inductive BridgeCommand where
  | init (cwd : String) (metadata : JRecord)
  | create_session (cwd : String) (yolo : Bool) (model : Option String)
      (resume : Option String) (metadata : JRecord)
  | load_session (session_id : String) (metadata : JRecord)
  | new_session (cwd : String) (yolo : Bool) (model : Option String)
  | prompt (session_id : String) (chunks : List PromptChunk)
  | cancel_turn (session_id : String)
  | set_model (session_id : String) (model : String)
  | set_mode (session_id : String) (mode : String)
  | permission_response (session_id : String) (tool_call_id : String)
      (outcome : PermissionOutcome)
  | shutdown

/-- Narrow a possibly-absent value to a plain object or fail with the
context-qualified message; models the throwing `asRecord` helper (absent,
null, array and non-object values all fail). -/
def asRecordE (value : Option JsonValue) (context : String) : Except String JRecord :=
  match value with
  | some (.obj fields) => .ok fields
  | _ => .error (context ++ " must be an object")

/-- Require a string field. -/
def expectString (record : JRecord) (key context : String) : Except String String :=
  match lookupField record key with
  | some (.str s) => .ok s
  | _ => .error (context ++ "." ++ key ++ " must be a string")

/-- Require a boolean field. -/
def expectBoolean (record : JRecord) (key context : String) : Except String Bool :=
  match lookupField record key with
  | some (.bool b) => .ok b
  | _ => .error (context ++ "." ++ key ++ " must be a boolean")

/-- Optional string field: absent or null yields none, a string yields it,
anything else fails. -/
def optionalString (record : JRecord) (key context : String) :
    Except String (Option String) :=
  match lookupField record key with
  | none => .ok none
  | some .null => .ok none
  | some (.str s) => .ok (some s)
  | some _ => .error (context ++ "." ++ key ++ " must be a string when provided")

/-- Optional metadata object: absent or null yields the empty object. -/
def optionalMetadata (record : JRecord) (key : String) : Except String JRecord :=
  match lookupField record key with
  | none => .ok []
  | some .null => .ok []
  | some v => asRecordE (some v) (key ++ " metadata")

/-- Validate the chunk objects of a prompt command, indexing error paths. -/
def parsePromptChunksLoop (context : String) : Nat → List JsonValue →
    Except String (List PromptChunk)
  | _, [] => .ok []
  | idx, chunk :: rest => do
    let ctxIdx := context ++ ".chunks[" ++ toString idx ++ "]"
    let parsed ← asRecordE (some chunk) ctxIdx
    let kind ← expectString parsed "kind" ctxIdx
    let value := (lookupField parsed "value").getD .null
    let tail ← parsePromptChunksLoop context (idx + 1) rest
    .ok (⟨kind, value⟩ :: tail)

/-- Validate the chunks field of a prompt command. -/
def parsePromptChunks (record : JRecord) (context : String) :
    Except String (List PromptChunk) :=
  match lookupField record "chunks" with
  | some (.arr rawChunks) => parsePromptChunksLoop context 0 rawChunks
  | _ => .error (context ++ ".chunks must be an array")

/-- A parsed envelope: the optional request id and the command. -/
structure BridgeCommandEnvelopeResult where
  requestId : Option String
  command : BridgeCommand

/-- Extract the optional request id; a non-string value is silently
dropped rather than rejected. -/
def requestIdOfEnvelope (raw : JRecord) : Option String :=
  match lookupField raw "request_id" with
  | some (.str s) => some s
  | _ => none

/-- Dispatch on the command tag and run the per-command strict validator. -/
def parseBridgeCommandOfEnvelope (raw : JRecord) : Except String BridgeCommand := do
  let commandName ← expectString raw "command" "command envelope"
  match commandName with
  | "initialize" => do
    let cwd ← expectString raw "cwd" "initialize"
    let metadata ← optionalMetadata raw "metadata"
    .ok (BridgeCommand.init cwd metadata)
  | "create_session" => do
    let cwd ← expectString raw "cwd" "create_session"
    let yolo ← expectBoolean raw "yolo" "create_session"
    let model ← optionalString raw "model" "create_session"
    let resume ← optionalString raw "resume" "create_session"
    let metadata ← optionalMetadata raw "metadata"
    .ok (.create_session cwd yolo model resume metadata)
  | "load_session" => do
    let sessionId ← expectString raw "session_id" "load_session"
    let metadata ← optionalMetadata raw "metadata"
    .ok (.load_session sessionId metadata)
  | "new_session" => do
    let cwd ← expectString raw "cwd" "new_session"
    let yolo ← expectBoolean raw "yolo" "new_session"
    let model ← optionalString raw "model" "new_session"
    .ok (.new_session cwd yolo model)
  | "prompt" => do
    let sessionId ← expectString raw "session_id" "prompt"
    let chunks ← parsePromptChunks raw "prompt"
    .ok (.prompt sessionId chunks)
  | "cancel_turn" => do
    let sessionId ← expectString raw "session_id" "cancel_turn"
    .ok (.cancel_turn sessionId)
  | "set_model" => do
    let sessionId ← expectString raw "session_id" "set_model"
    let model ← expectString raw "model" "set_model"
    .ok (.set_model sessionId model)
  | "set_mode" => do
    let sessionId ← expectString raw "session_id" "set_mode"
    let mode ← expectString raw "mode" "set_mode"
    .ok (.set_mode sessionId mode)
  | "permission_response" => do
    let outcome ← asRecordE (lookupField raw "outcome") "permission_response.outcome"
    let outcomeType ← expectString outcome "outcome" "permission_response.outcome"
    if outcomeType ≠ "selected" ∧ outcomeType ≠ "cancelled" then
      .error "permission_response.outcome.outcome must be \x27selected\x27 or \x27cancelled\x27"
    else do
      let parsedOutcome : PermissionOutcome ←
        if outcomeType = "selected" then do
          let optionId ← expectString outcome "option_id" "permission_response.outcome"
          pure (PermissionOutcome.selected optionId)
        else pure PermissionOutcome.cancelled
      let sessionId ← expectString raw "session_id" "permission_response"
      let toolCallId ← expectString raw "tool_call_id" "permission_response"
      .ok (.permission_response sessionId toolCallId parsedOutcome)
  | "shutdown" => .ok .shutdown
  | _ => .error ("unsupported command: " ++ commandName)

/-- Validate an already-parsed envelope object. -/
def parseEnvelopeObj (raw : JRecord) : Except String BridgeCommandEnvelopeResult := do
  let requestId := requestIdOfEnvelope raw
  let command ← parseBridgeCommandOfEnvelope raw
  .ok ⟨requestId, command⟩

/-- Parse one inbound line into a validated command envelope; a JSON
syntax failure models the propagated SyntaxError of JSON.parse. -/
def parseCommandEnvelope (line : String) : Except String BridgeCommandEnvelopeResult :=
  match parseJson line with
  | none => .error "SyntaxError: invalid JSON"
  | some parsed => do
    let raw ← asRecordE (some parsed) "command envelope"
    parseEnvelopeObj raw

/-! ### Conversation replay engine (history module) -/

/-- The two processed message roles. -/
inductive ChatRole where
  | user
  | assistant
deriving DecidableEq

/-- State threaded through one replay invocation. The `usagePushes` field
is pure instrumentation: it records, for each emitted usage update, the
message identifier the emission was attributed to (the empty string when
the message had none); it is written exactly where a usage update is
appended and is read by no operation. -/
structure ReplayState where
  updates : List SessionUpdate
  toolCalls : List (String × ToolCall)
  emittedUsageMessageIds : List String
  usagePushes : List String

/-- Lookup in the per-replay tool call table (Map.get). -/
def toolCallsGet (m : List (String × ToolCall)) (k : String) : Option ToolCall :=
  (m.find? (fun p => p.1 == k)).map (fun p => p.2)

/-- Store in the per-replay tool call table (Map.set), replacing in place. -/
def toolCallsSet : List (String × ToolCall) → String → ToolCall → List (String × ToolCall)
  | [], k, v => [(k, v)]
  | (k0, v0) :: rest, k, v =>
    if k0 = k then (k0, v) :: rest else (k0, v0) :: toolCallsSet rest k v

/-- Modelled from the spec: `createToolCall` from the tooling module
(source not provided); builds a fresh tool call record with pending status
and no output, following the ToolCall data model. -/
def createToolCall (id name : String) (input : JRecord) : ToolCall :=
  { id := id, name := name, input := input, status := .pending,
    raw_output := none, content := none }

/-- Modelled from the spec: `isToolUseBlockType` from the tooling module;
recognizes the tool-use content block type. -/
def isToolUseBlockType (t : String) : Bool := t == "tool_use"

/-- Modelled from the spec: the TOOL_RESULT_TYPES set from the tooling
module; the tool-result content block types. -/
def TOOL_RESULT_TYPES : List String := ["tool_result"]

/-- Modelled from the spec: `buildToolResultFields` from the tooling
module; derives the result fields to merge (status from the error flag,
raw output and content from the result payload). -/
def buildToolResultFields (isError : Bool) (content : Option JsonValue)
    (_base : Option ToolCall) : ToolResultFields :=
  { status := some (if isError then .error else .completed)
    raw_output := content
    content := content }

/-- Emit a role-tagged text chunk unless the text is blank. -/
def pushResumeTextChunk (st : ReplayState) (role : ChatRole) (text : String) : ReplayState :=
  if text.trim = "" then st
  else
    match role with
    | .assistant => { st with updates := st.updates ++ [.agent_message_chunk text] }
    | .user => { st with updates := st.updates ++ [.user_message_chunk text] }

/-- Open a tool call from a tool-use block: store it in the lookup table
with in-progress status and emit a creation update. -/
def pushResumeToolUse (st : ReplayState) (block : JRecord) : ReplayState :=
  match lookupField block "id" with
  | some (.str toolUseId) =>
    if toolUseId = "" then st
    else
      let name :=
        match lookupField block "name" with
        | some (.str n) => n
        | _ => "Tool"
      let input := (asRecordOrNullOpt (lookupField block "input")).getD []
      let toolCall := { createToolCall toolUseId name input with status := .in_progress }
      { st with
        toolCalls := toolCallsSet st.toolCalls toolUseId toolCall
        updates := st.updates ++ [.tool_call toolCall] }
  | _ => st

/-- Handle a tool-result block: always emit an update carrying the result
fields; merge those fields into the stored call only when one exists. -/
def pushResumeToolResult (st : ReplayState) (block : JRecord) : ReplayState :=
  match lookupField block "tool_use_id" with
  | some (.str toolUseId) =>
    if toolUseId = "" then st
    else
      let isError := jsTruthy (lookupField block "is_error")
      let base := toolCallsGet st.toolCalls toolUseId
      let fields := buildToolResultFields isError (lookupField block "content") base
      let st1 := { st with updates := st.updates ++ [.tool_call_update toolUseId fields] }
      match base with
      | none => st1
      | some b =>
        let b1 := { b with status := fields.status.getD b.status }
        let b2 := if jsTruthy fields.raw_output then { b1 with raw_output := fields.raw_output }
                  else b1
        let b3 := if jsTruthy fields.content then { b2 with content := fields.content } else b2
        { st1 with toolCalls := toolCallsSet st1.toolCalls toolUseId b3 }
  | _ => st

/-- Attempt a deduplicated usage emission for a processed message. -/
def pushResumeUsageUpdate (st : ReplayState) (message : JRecord) : ReplayState :=
  let messageId :=
    match lookupField message "id" with
    | some (.str s) => s
    | _ => ""
  if messageId ≠ "" ∧ st.emittedUsageMessageIds.contains messageId then st
  else
    match buildUsageUpdateFromResult message with
    | none => st
    | some usageUpdate =>
      { st with
        updates := st.updates ++ [usageUpdate]
        usagePushes := st.usagePushes ++ [messageId]
        emittedUsageMessageIds :=
          if messageId = "" then st.emittedUsageMessageIds
          else st.emittedUsageMessageIds ++ [messageId] }

/-- Candidate message objects of a record: the direct message field and
the doubly-nested data wrapper, in that order. -/
def persistedMessageCandidates (record : JRecord) : List JRecord :=
  let topLevel := asRecordOrNullOpt (lookupField record "message")
  let nested :=
    asRecordOrNullOpt
      ((asRecordOrNullOpt
          ((asRecordOrNullOpt (lookupField record "data")).bind
            (fun d => lookupField d "message"))).bind
        (fun m => lookupField m "message"))
  topLevel.toList ++ nested.toList

/-- Translate one content block of a qualifying message. -/
def processResumeContentItem (st : ReplayState) (role : ChatRole) (item : JsonValue) :
    ReplayState :=
  match asRecordOrNull item with
  | none => st
  | some block =>
    let blockType :=
      match lookupField block "type" with
      | some (.str t) => t
      | _ => ""
    let textOfBlock : Option String :=
      if blockType = "text" then
        match lookupField block "text" with
        | some (.str t) => some t
        | _ => none
      else none
    if blockType = "thinking" then st
    else
      match textOfBlock with
      | some text => pushResumeTextChunk st role text
      | none =>
        if isToolUseBlockType blockType ∧ role = ChatRole.assistant then
          pushResumeToolUse st block
        else if TOOL_RESULT_TYPES.contains blockType then pushResumeToolResult st block
        else if blockType = "image" then pushResumeTextChunk st role "[image]"
        else st

/-- The role of a message, when it is one of the two processed roles. -/
def roleOfMessage (message : JRecord) : Option ChatRole :=
  match lookupField message "role" with
  | some (.str "user") => some .user
  | some (.str "assistant") => some .assistant
  | _ => none

/-- Process one candidate message: walk its content blocks in order, then
attempt a usage emission. -/
def processResumeMessage (st : ReplayState) (message : JRecord) : ReplayState :=
  match roleOfMessage message with
  | none => st
  | some role =>
    let content :=
      match lookupField message "content" with
      | some (.arr items) => items
      | _ => []
    let st1 := content.foldl (fun s item => processResumeContentItem s role item) st
    pushResumeUsageUpdate st1 message

/-- Process one parsed log record. -/
def processResumeRecord (st : ReplayState) (record : JRecord) : ReplayState :=
  (persistedMessageCandidates record).foldl processResumeMessage st

/-- The parsed object of one raw log line, when the line survives the
blank, JSON and object checks. -/
def logLineRecord (rawLine : String) : Option JRecord :=
  let line := rawLine.trim
  if line = "" then none
  else (parseJson line).bind asRecordOrNull

/-- Process one raw log line, skipping blank and malformed lines. -/
def processResumeLine (st : ReplayState) (rawLine : String) : ReplayState :=
  match logLineRecord rawLine with
  | none => st
  | some record => processResumeRecord st record

/-- The fresh state of one replay invocation. -/
def initialReplayState : ReplayState := ⟨[], [], [], []⟩

/-- Full replay over the log lines, returning the final state. -/
def extractReplayStateFromLines (lines : List String) : ReplayState :=
  lines.foldl processResumeLine initialReplayState

/-- The emitted update sequence of a replay over the log lines. -/
def extractHistoryFromLines (lines : List String) : List SessionUpdate :=
  (extractReplayStateFromLines lines).updates

/-- Split the log text on newline or carriage-return-newline, modelling
the line-splitting regular expression. -/
def splitLogLinesChars : List Char → List Char → List String
  | acc, [] => [String.mk acc.reverse]
  | acc, '\r' :: '\n' :: rest => String.mk acc.reverse :: splitLogLinesChars [] rest
  | acc, '\n' :: rest => String.mk acc.reverse :: splitLogLinesChars [] rest
  | acc, c :: rest => splitLogLinesChars (c :: acc) rest

def splitLogLines (text : String) : List String := splitLogLinesChars [] text.data

/-- Replay a persisted session log (given as its full text; the file read
itself is the external filesystem collaborator). -/
def extractSessionHistoryUpdatesFromJsonl (text : String) : List SessionUpdate :=
  extractHistoryFromLines (splitLogLines text)

/-- Keep a log line iff it is neither blank nor malformed: its trimmed
text is non-empty, parses as JSON and yields a plain object. -/
def keepLogLine (rawLine : String) : Bool := (logLineRecord rawLine).isSome

/-! ### Session title derivation (history module, discovery side) -/

/-- Whitespace as matched by the whitespace class of the normalizing
regular expressions. -/
def jsWhitespace (c : Char) : Bool :=
  c == ' ' || c == '\t' || c == '\n' || c == '\r' || c == '\x0b' || c == '\x0c' ||
  c == '\u00A0' || c == '\u2028' || c == '\u2029' || c == '\uFEFF'

/-- Case-insensitive begins-with test on character lists. -/
def startsWithCI : List Char → List Char → Bool
  | [], _ => true
  | _ :: _, [] => false
  | p :: ps, c :: cs => p.toLower == c.toLower && startsWithCI ps cs

/-- Drop everything from the first case-insensitive occurrence of the
context tag onward, replacing it with one space. -/
def stripContextTagChars : List Char → List Char
  | [] => []
  | c :: rest =>
    if startsWithCI "<context".data (c :: rest) then [' ']
    else c :: stripContextTagChars rest

/-- Try to read a markdown link right after an opening bracket: a
non-empty run without a closing bracket, the closing bracket, a
parenthesized non-empty run; returns the link text and the remainder. -/
def tryMarkdownLink (cs : List Char) : Option (List Char × List Char) :=
  let textSplit := cs.span (fun c => c != ']')
  if textSplit.1.isEmpty then none
  else
    match textSplit.2 with
    | ']' :: '(' :: rest2 =>
      let urlSplit := rest2.span (fun c => c != ')')
      if urlSplit.1.isEmpty then none
      else
        match urlSplit.2 with
        | ')' :: rem => some (textSplit.1, rem)
        | _ => none
    | _ => none

/-- Collapse every markdown link to its text, scanning left to right. -/
def collapseMarkdownLinks : Nat → List Char → List Char
  | 0, cs => cs
  | _ + 1, [] => []
  | fuel + 1, '[' :: rest =>
    (match tryMarkdownLink rest with
     | some (txt, rem) => txt ++ collapseMarkdownLinks fuel rem
     | none => '[' :: collapseMarkdownLinks fuel rest)
  | fuel + 1, c :: rest => c :: collapseMarkdownLinks fuel rest

/-- Replace each maximal whitespace run with a single space; the flag
records whether the previous character was whitespace. -/
def collapseWhitespaceChars : Bool → List Char → List Char
  | _, [] => []
  | prevWs, c :: rest =>
    if jsWhitespace c then
      if prevWs then collapseWhitespaceChars true rest
      else ' ' :: collapseWhitespaceChars true rest
    else c :: collapseWhitespaceChars false rest

/-- Trim leading and trailing whitespace. -/
def trimJsWs (cs : List Char) : List Char :=
  ((cs.dropWhile jsWhitespace).reverse.dropWhile jsWhitespace).reverse

/-- Normalize a user prompt text: strip the context tag and what follows,
collapse markdown links to their text, collapse whitespace, trim. -/
def normalizeUserPromptText (raw : String) : String :=
  let s1 := stripContextTagChars raw.data
  let s2 := collapseMarkdownLinks (s1.length + 1) s1
  let s3 := collapseWhitespaceChars false s2
  String.mk (trimJsWs s3)

/-- Truncate to at most `maxChars` Unicode code points, keeping whole code
points (Array.from iterates code points). -/
def truncateTextByChars (text : String) (maxChars : Nat) : String :=
  let chars := text.data
  if chars.length ≤ maxChars then text
  else String.mk (chars.take maxChars)

/-- The normalized text of a content block, when the block is a text block
with a string text that is non-empty after normalization. -/
def cleanedTextOfBlock (item : JsonValue) : Option String :=
  match asRecordOrNull item with
  | none => none
  | some block =>
    match lookupField block "type", lookupField block "text" with
    | some (.str "text"), some (.str text) =>
      let cleaned := normalizeUserPromptText text
      if cleaned = "" then none else some cleaned
    | _, _ => none

/-- Join accumulated parts with single spaces. -/
def joinParts (parts : List String) : String := String.intercalate " " parts

/-- Accumulation loop over the content blocks of the first user message:
collect normalized text parts and stop early once the running
concatenation reaches 180 code points. -/
def firstUserMessageTitleLoop : List String → List JsonValue → Option String
  | parts, [] =>
    if parts.isEmpty then none else some (truncateTextByChars (joinParts parts) 180)
  | parts, item :: rest =>
    match cleanedTextOfBlock item with
    | none => firstUserMessageTitleLoop parts rest
    | some cleaned =>
      let parts2 := parts ++ [cleaned]
      let combined := joinParts parts2
      if 180 ≤ combined.data.length then some (truncateTextByChars combined 180)
      else firstUserMessageTitleLoop parts2 rest

/-- Derive a session title from a user-authored log record. -/
def firstUserMessageTitleFromRecord (record : JRecord) : Option String :=
  match lookupField record "type" with
  | some (.str "user") =>
    (match asRecordOrNullOpt (lookupField record "message") with
     | none => none
     | some message =>
       match lookupField message "role", lookupField message "content" with
       | some (.str "user"), some (.arr content) => firstUserMessageTitleLoop [] content
       | _, _ => none)
  | _ => none

/-! ### Derived notions used by the statements -/

/-- A destination is persistent-scoped iff it is one of the three settings
destinations; every other destination (including unrecognized ones)
classifies as session-scoped. -/
def isPersistentDestination (d : String) : Bool :=
  PERSISTENT_PERMISSION_DESTINATIONS.contains d

/-- Recognizer for usage updates in an emitted stream. -/
def isUsageUpdate : SessionUpdate → Bool
  | .usage_update _ => true
  | _ => false

/-- The turn cost carried by an emitted usage update, if any. -/
def usageTurnCostOf : Option SessionUpdate → Option ℚ
  | some (.usage_update u) => u.turn_cost_usd
  | _ => none

/-- A result message carrying only a total cost. -/
def mkTotalCostMessage (t : ℚ) : JRecord := [("total_cost_usd", .num t)]

/-- Feed a sequence of totals through one session context, collecting the
emitted turn cost of each observation. -/
def runUsageTotals (ts : List ℚ) : Option UsageSessionContext × List (Option ℚ) :=
  ts.foldl
    (fun acc t =>
      let r := buildUsageUpdateFromResultForSession acc.1 (mkTotalCostMessage t)
      (r.2, acc.2 ++ [usageTurnCostOf r.1]))
    (some ⟨none, none⟩, [])

/-- Replay invariant for one message identifier `m`: the instrumentation
trace counts exactly the emitted usage updates, `m` is attributed at most
once, and an attributed `m` has been recorded in the seen set. -/
def ReplayInv (m : String) (st : ReplayState) : Prop :=
  st.updates.countP isUsageUpdate = st.usagePushes.length ∧
  st.usagePushes.count m ≤ 1 ∧
  (m ∈ st.usagePushes → m ∈ st.emittedUsageMessageIds)

/-! ### Theorems -/

theorem session_dest_not_persistent (d : String)
    (h : SESSION_PERMISSION_DESTINATIONS.contains d = true) :
    isPersistentDestination d = false := by
  have hd : d = "session" ∨ d = "cliArg" := by
    simpa [SESSION_PERMISSION_DESTINATIONS] using h
  rcases hd with rfl | rfl <;> rfl

theorem splitPermissionLoop_eq (l : List PermissionUpdate) :
    splitPermissionLoop l =
      ⟨l.filter (fun u => !isPersistentDestination u.destination),
       l.filter (fun u => isPersistentDestination u.destination)⟩ := by
  induction l with
  | nil => rfl
  | cons s rest ih =>
    simp only [splitPermissionLoop, ih, List.filter_cons]
    cases hSes : SESSION_PERMISSION_DESTINATIONS.contains s.destination with
    | true =>
      have hp := session_dest_not_persistent s.destination hSes
      simp [hSes, hp, isPersistentDestination] at *
      simp [hp]
    | false =>
      cases hPer : PERSISTENT_PERMISSION_DESTINATIONS.contains s.destination with
      | true =>
        have hp : isPersistentDestination s.destination = true := hPer
        simp [hSes, hPer, hp]
      | false =>
        have hp : isPersistentDestination s.destination = false := hPer
        simp [hSes, hPer, hp]

theorem splitPermissionSuggestionsByScope_eq (s : Option (List PermissionUpdate)) :
    splitPermissionSuggestionsByScope s =
      ⟨(s.getD []).filter (fun u => !isPersistentDestination u.destination),
       (s.getD []).filter (fun u => isPersistentDestination u.destination)⟩ := by
  match s with
  | none => rfl
  | some l =>
    by_cases hl : l.isEmpty
    · have : l = [] := List.isEmpty_iff.mp hl
      subst this
      rfl
    · simp [splitPermissionSuggestionsByScope, hl, splitPermissionLoop_eq]

theorem filter_not_persistent_pos_iff (l : List PermissionUpdate) :
    (0 < (l.filter (fun u => !isPersistentDestination u.destination)).length ∧
        ¬0 < (l.filter (fun u => isPersistentDestination u.destination)).length) ↔
      (l ≠ [] ∧ ∀ u ∈ l, isPersistentDestination u.destination = false) := by
  constructor
  · rintro ⟨h1, h2⟩
    have hall : ∀ u ∈ l, isPersistentDestination u.destination = false := by
      intro u hu
      by_contra hne
      have ht : isPersistentDestination u.destination = true := by
        cases h : isPersistentDestination u.destination
        · exact absurd h hne
        · rfl
      have : u ∈ l.filter (fun u => isPersistentDestination u.destination) :=
        List.mem_filter.mpr ⟨hu, ht⟩
      exact h2 (List.length_pos.mpr (List.ne_nil_of_mem this))
    refine ⟨?_, hall⟩
    rcases List.exists_mem_of_length_pos h1 with ⟨u, hu⟩
    exact List.ne_nil_of_mem (List.mem_filter.mp hu).1
  · rintro ⟨hne, hall⟩
    rcases List.exists_mem_of_ne_nil l hne with ⟨u, hu⟩
    constructor
    · have : u ∈ l.filter (fun u => !isPersistentDestination u.destination) :=
        List.mem_filter.mpr ⟨hu, by simp [hall u hu]⟩
      exact List.length_pos.mpr (List.ne_nil_of_mem this)
    · intro hpos
      rcases List.exists_mem_of_length_pos hpos with ⟨v, hv⟩
      rcases List.mem_filter.mp hv with ⟨hvl, hvp⟩
      simp [hall v hvl] at hvp

/-- C6: for every list of permission suggestions (including none),
`permissionOptionsFromSuggestions` returns exactly 3 options: allow-once
first, deny-once last, and a middle option that is allow_session exactly
when at least one suggestion classifies as session-scoped and none
classifies as persistent-scoped (unrecognized destinations default to
session scope), allow_always otherwise; the choice depends only on
presence or absence of each scope, not on counts. -/
theorem C6_permission_options_shape :
    (∀ s : Option (List PermissionUpdate),
      (permissionOptionsFromSuggestions s).length = 3 ∧
      (permissionOptionsFromSuggestions s)[0]? =
        some ⟨"allow_once", "Allow once", "allow_once"⟩ ∧
      (permissionOptionsFromSuggestions s)[2]? =
        some ⟨"reject_once", "Deny", "reject_once"⟩ ∧
      ((permissionOptionsFromSuggestions s)[1]? =
          some ⟨"allow_session", "Allow for session", "allow_session"⟩ ↔
        (s.getD [] ≠ [] ∧
          ∀ u ∈ s.getD [], isPersistentDestination u.destination = false)) ∧
      ((permissionOptionsFromSuggestions s)[1]? =
          some ⟨"allow_session", "Allow for session", "allow_session"⟩ ∨
        (permissionOptionsFromSuggestions s)[1]? =
          some ⟨"allow_always", "Always allow", "allow_always"⟩)) ∧
    (∀ (u : PermissionUpdate) (rest : List PermissionUpdate),
      permissionOptionsFromSuggestions (some (u :: u :: rest)) =
        permissionOptionsFromSuggestions (some (u :: rest))) := by
  constructor
  · intro s
    unfold permissionOptionsFromSuggestions
    rw [splitPermissionSuggestionsByScope_eq]
    refine ⟨rfl, rfl, rfl, ?_, ?_⟩
    · rw [← filter_not_persistent_pos_iff]
      by_cases h1 : 0 < ((s.getD []).filter
          (fun u => !isPersistentDestination u.destination)).length
      · by_cases h2 : 0 < ((s.getD []).filter
            (fun u => isPersistentDestination u.destination)).length
        · simp [h1, h2]
        · simp [h1, h2]
      · simp [h1]
    · by_cases h1 : 0 < ((s.getD []).filter
          (fun u => !isPersistentDestination u.destination)).length
      · by_cases h2 : 0 < ((s.getD []).filter
            (fun u => isPersistentDestination u.destination)).length
        · right; simp [h1, h2]
        · left; simp [h1, h2]
      · right; simp [h1]
  · intro u rest
    unfold permissionOptionsFromSuggestions
    rw [splitPermissionSuggestionsByScope_eq, splitPermissionSuggestionsByScope_eq]
    simp only [Option.getD_some, List.filter_cons]
    cases hp : isPersistentDestination u.destination with
    | true => simp [hp]
    | false => simp [hp]

/-- C7: `permissionResultFromOutcome` is total over every outcome and
option id and always yields a defined allow or deny result: cancelled
yields deny with message "Permission cancelled"; selecting allow_once
yields allow with the input passed through unchanged and no rule
suggestions attached; selecting any option id other than allow_once,
allow_session or allow_always yields deny with message
"Permission denied". -/
theorem C7_permission_result_total :
    ∀ (toolCallId : String) (inputData : JRecord)
      (suggestions : Option (List PermissionUpdate)) (toolName : Option String),
      permissionResultFromOutcome .cancelled toolCallId inputData suggestions toolName =
        .deny "Permission cancelled" toolCallId ∧
      permissionResultFromOutcome (.selected "allow_once") toolCallId inputData
          suggestions toolName = .allow inputData none toolCallId ∧
      (∀ optionId : String, optionId ≠ "allow_once" → optionId ≠ "allow_session" →
        optionId ≠ "allow_always" →
        permissionResultFromOutcome (.selected optionId) toolCallId inputData
            suggestions toolName = .deny "Permission denied" toolCallId) ∧
      (∀ outcome : PermissionOutcome,
        (∃ perms, permissionResultFromOutcome outcome toolCallId inputData suggestions
            toolName = .allow inputData perms toolCallId) ∨
        (∃ msg, permissionResultFromOutcome outcome toolCallId inputData suggestions
            toolName = .deny msg toolCallId)) := by
  intro toolCallId inputData suggestions toolName
  refine ⟨rfl, by simp [permissionResultFromOutcome], ?_, ?_⟩
  · intro optionId h1 h2 h3
    simp [permissionResultFromOutcome, h1, h2, h3]
  · intro outcome
    cases outcome with
    | cancelled => exact Or.inr ⟨_, rfl⟩
    | selected optionId =>
      unfold permissionResultFromOutcome
      dsimp only
      repeat' split
      all_goals first
        | exact Or.inl ⟨_, rfl⟩
        | exact Or.inr ⟨_, rfl⟩

/-- C8: selecting allow_session attaches the session-scoped suggestions
when any exist, otherwise synthesizes exactly one generic session-scope
allow rule for the tool when a non-empty tool name is known, otherwise
attaches nothing; selecting allow_always attaches the persistent-scoped
suggestions when any exist and otherwise attaches nothing, with no
synthesized fallback. -/
theorem C8_allow_session_vs_allow_always :
    ∀ (toolCallId : String) (inputData : JRecord)
      (suggestions : Option (List PermissionUpdate)) (toolName : Option String),
      ((suggestions.getD []).filter (fun u => !isPersistentDestination u.destination) ≠ [] →
        permissionResultFromOutcome (.selected "allow_session") toolCallId inputData
            suggestions toolName =
          .allow inputData
            (some ((suggestions.getD []).filter
              (fun u => !isPersistentDestination u.destination))) toolCallId) ∧
      ((suggestions.getD []).filter (fun u => !isPersistentDestination u.destination) = [] →
        ∀ n : String, toolName = some n → n ≠ "" →
        permissionResultFromOutcome (.selected "allow_session") toolCallId inputData
            suggestions toolName =
          .allow inputData
            (some [PermissionUpdate.addRules [⟨n, none⟩] "allow" "session"]) toolCallId) ∧
      ((suggestions.getD []).filter (fun u => !isPersistentDestination u.destination) = [] →
        (toolName = none ∨ toolName = some "") →
        permissionResultFromOutcome (.selected "allow_session") toolCallId inputData
            suggestions toolName = .allow inputData none toolCallId) ∧
      ((suggestions.getD []).filter (fun u => isPersistentDestination u.destination) ≠ [] →
        permissionResultFromOutcome (.selected "allow_always") toolCallId inputData
            suggestions toolName =
          .allow inputData
            (some ((suggestions.getD []).filter
              (fun u => isPersistentDestination u.destination))) toolCallId) ∧
      ((suggestions.getD []).filter (fun u => isPersistentDestination u.destination) = [] →
        permissionResultFromOutcome (.selected "allow_always") toolCallId inputData
            suggestions toolName = .allow inputData none toolCallId) := by
  intro toolCallId inputData suggestions toolName
  have hsp := splitPermissionSuggestionsByScope_eq suggestions
  refine ⟨?_, ?_, ?_, ?_, ?_⟩
  · intro h
    have hpos : 0 < ((suggestions.getD []).filter
        (fun u => !isPersistentDestination u.destination)).length :=
      List.length_pos.mpr h
    simp [permissionResultFromOutcome, hsp, hpos]
  · intro h n hn hne
    subst hn
    simp [permissionResultFromOutcome, hsp, h, hne]
  · intro h hn
    rcases hn with rfl | rfl
    · simp [permissionResultFromOutcome, hsp, h]
    · simp [permissionResultFromOutcome, hsp, h]
  · intro h
    have hpos : 0 < ((suggestions.getD []).filter
        (fun u => isPersistentDestination u.destination)).length :=
      List.length_pos.mpr h
    simp [permissionResultFromOutcome, hsp, hpos]
  · intro h
    simp [permissionResultFromOutcome, hsp, h]

theorem usage_total_step (ctx : UsageSessionContext) (message : JRecord) (t : ℚ)
    (h : numberField message ["total_cost_usd", "totalCostUsd"] = some t) :
    (buildUsageUpdateFromResultForSession (some ctx) message).2 =
        some { ctx with lastTotalCostUsd := some t } ∧
    usageTurnCostOf (buildUsageUpdateFromResultForSession (some ctx) message).1 =
      some (match ctx.lastTotalCostUsd with
            | none => t
            | some l => max 0 (t - l)) := by
  constructor
  · simp only [buildUsageUpdateFromResultForSession, h]
    split <;> rfl
  · simp only [buildUsageUpdateFromResultForSession, h]
    split
    · rename_i hall
      simp at hall
    · cases hl : ctx.lastTotalCostUsd <;> simp [usageTurnCostOf, hl]

/-- C2: for result messages carrying a total cost processed sequentially
against one session context, the first observed total yields a turn-cost
delta equal to that total, every subsequent observation yields
max(0, newTotal - lastObservedTotal), and lastTotalCostUsd is set to the
new total unconditionally on every observation; in particular the totals
[0.02, 0.05, 0.03] yield the deltas [0.02, 0.03, 0]. -/
theorem C2_usage_turn_cost_deltas :
    (∀ (ctx : UsageSessionContext) (message : JRecord) (t : ℚ),
      numberField message ["total_cost_usd", "totalCostUsd"] = some t →
      (buildUsageUpdateFromResultForSession (some ctx) message).2 =
          some { ctx with lastTotalCostUsd := some t } ∧
      usageTurnCostOf (buildUsageUpdateFromResultForSession (some ctx) message).1 =
        some (match ctx.lastTotalCostUsd with
              | none => t
              | some l => max 0 (t - l))) ∧
    (runUsageTotals [(2 : ℚ)/100, 5/100, 3/100]).2 =
      [some ((2 : ℚ)/100), some ((3 : ℚ)/100), some (0 : ℚ)] := by
  constructor
  · exact usage_total_step
  · have k1 := usage_total_step ⟨none, none⟩ (mkTotalCostMessage ((2 : ℚ)/100))
      ((2 : ℚ)/100) rfl
    have k2 := usage_total_step ⟨none, some ((2 : ℚ)/100)⟩
      (mkTotalCostMessage ((5 : ℚ)/100)) ((5 : ℚ)/100) rfl
    have k3 := usage_total_step ⟨none, some ((5 : ℚ)/100)⟩
      (mkTotalCostMessage ((3 : ℚ)/100)) ((3 : ℚ)/100) rfl
    unfold runUsageTotals
    simp only [List.foldl_cons, List.foldl_nil]
    rw [k1.1, k1.2, k2.1, k2.2, k3.2]
    norm_num

/-- C5: parseCommandEnvelope is all-or-nothing: every input line either
yields a fully populated typed command of one of the ten kinds or fails
with an error; a prompt command whose chunks field is missing fails with
an error naming prompt.chunks, an unrecognized command tag fails with
"unsupported command: <name>", and a well-formed prompt line parses to
exactly its typed fields; no partially populated command exists. -/
theorem C5_parse_command_envelope_all_or_nothing :
    (∀ line : String,
      (∃ c, parseCommandEnvelope line = .ok c) ∨
      (∃ e, parseCommandEnvelope line = .error e)) ∧
    parseCommandEnvelope "\x7b\"command\":\"prompt\",\"session_id\":\"s1\"\x7d" =
      .error "prompt.chunks must be an array" ∧
    parseCommandEnvelope "\x7b\"command\":\"frobnicate\"\x7d" =
      .error "unsupported command: frobnicate" ∧
    parseCommandEnvelope
        "\x7b\"command\":\"prompt\",\"session_id\":\"s1\",\"chunks\":[\x7b\"kind\":\"text\",\"value\":\"hi\"\x7d]\x7d" =
      .ok ⟨none, .prompt "s1" [⟨"text", .str "hi"⟩]⟩ := by
  refine ⟨?_, rfl, rfl, rfl⟩
  intro line
  cases h : parseCommandEnvelope line with
  | ok c => exact Or.inl ⟨c, rfl⟩
  | error e => exact Or.inr ⟨e, rfl⟩

/-- C10: an envelope whose request_id field is present with a non-string
value does not fail on request_id: the value is silently dropped (the
requestId is absent) and the outcome is exactly what the command
validator decides; in particular a shutdown command with a numeric
request_id parses successfully with no request id. -/
theorem C10_non_string_request_id_dropped :
    (∀ (raw : JRecord) (v : JsonValue),
      lookupField raw "request_id" = some v →
      (match v with | .str _ => False | _ => True) →
      requestIdOfEnvelope raw = none ∧
      parseEnvelopeObj raw =
        (parseBridgeCommandOfEnvelope raw).map (fun c => ⟨none, c⟩)) ∧
    parseCommandEnvelope "\x7b\"command\":\"shutdown\",\"request_id\":42\x7d" =
      .ok ⟨none, .shutdown⟩ := by
  constructor
  · intro raw v hv hns
    have hrid : requestIdOfEnvelope raw = none := by
      unfold requestIdOfEnvelope
      rw [hv]
      cases v <;> try rfl
      exact hns.elim
    refine ⟨hrid, ?_⟩
    cases hc : parseBridgeCommandOfEnvelope raw with
    | ok c =>
      simp only [parseEnvelopeObj, hc, hrid, Except.map]
      rfl
    | error e =>
      simp only [parseEnvelopeObj, hc, Except.map]
      rfl
  · rfl

theorem truncateTextByChars_data (text : String) (maxChars : Nat) :
    (truncateTextByChars text maxChars).data = text.data.take maxChars := by
  unfold truncateTextByChars
  by_cases h : text.data.length ≤ maxChars
  · rw [if_pos h, List.take_of_length_le h]
  · rw [if_neg h]

theorem firstUserMessageTitleLoop_length (content : List JsonValue) :
    ∀ (parts : List String) (s : String),
      firstUserMessageTitleLoop parts content = some s → s.data.length ≤ 180 := by
  induction content with
  | nil =>
    intro parts s h
    unfold firstUserMessageTitleLoop at h
    by_cases hp : parts.isEmpty = true
    · rw [if_pos hp] at h
      cases h
    · rw [if_neg hp] at h
      have hs : s = truncateTextByChars (joinParts parts) 180 := (Option.some.inj h).symm
      rw [hs]
      simp only [truncateTextByChars_data, List.length_take]
      omega
  | cons item rest ih =>
    intro parts s h
    unfold firstUserMessageTitleLoop at h
    cases hc : cleanedTextOfBlock item with
    | none =>
      rw [hc] at h
      exact ih parts s h
    | some cleaned =>
      simp only [hc] at h
      by_cases hlen : 180 ≤ (joinParts (parts ++ [cleaned])).data.length
      · rw [if_pos hlen] at h
        have hs : s = truncateTextByChars (joinParts (parts ++ [cleaned])) 180 :=
          (Option.some.inj h).symm
        rw [hs]
        simp only [truncateTextByChars_data, List.length_take]
        omega
      · rw [if_neg hlen] at h
        exact ih _ s h

/-- C9: the derived session title contains at most 180 Unicode code
points, truncation keeps a code-point-level prefix of the input (so no
code point encoded as multiple UTF-16 units is ever split), and block
accumulation stops once the running concatenation reaches 180 code
points (the remaining blocks no longer influence the result). -/
theorem C9_title_truncation :
    (∀ text : String, (truncateTextByChars text 180).data = text.data.take 180) ∧
    (∀ (record : JRecord) (s : String),
      firstUserMessageTitleFromRecord record = some s → s.data.length ≤ 180) ∧
    (∀ (parts : List String) (item : JsonValue) (cleaned : String)
        (rest rest' : List JsonValue),
      cleanedTextOfBlock item = some cleaned →
      180 ≤ (joinParts (parts ++ [cleaned])).data.length →
      firstUserMessageTitleLoop parts (item :: rest) =
        firstUserMessageTitleLoop parts (item :: rest')) := by
  refine ⟨fun text => truncateTextByChars_data text 180, ?_, ?_⟩
  · intro record s h
    unfold firstUserMessageTitleFromRecord at h
    repeat' split at h
    all_goals first
      | exact firstUserMessageTitleLoop_length _ _ _ h
      | cases h
  · intro parts item cleaned rest rest' hc hlen
    unfold firstUserMessageTitleLoop
    simp only [hc]
    rw [if_pos hlen, if_pos hlen]

theorem processResumeLine_skip (st : ReplayState) (rawLine : String)
    (h : keepLogLine rawLine = false) : processResumeLine st rawLine = st := by
  unfold processResumeLine
  unfold keepLogLine at h
  cases hr : logLineRecord rawLine with
  | none => rfl
  | some record =>
    rw [hr] at h
    simp at h

theorem foldl_filter_skip {α β : Type} (f : β → α → β) (p : α → Bool)
    (hskip : ∀ (b : β) (a : α), p a = false → f b a = b) :
    ∀ (l : List α) (b : β), l.foldl f b = (l.filter p).foldl f b := by
  intro l
  induction l with
  | nil => intro b; rfl
  | cons a rest ih =>
    intro b
    cases hp : p a with
    | true => simp [List.filter_cons, hp, List.foldl_cons, ih]
    | false => simp [List.filter_cons, hp, List.foldl_cons, ih, hskip b a hp]

/-- C1: the replay output of a persisted session log equals, in order, the
output on the same log with every malformed (non-JSON or non-object) line
and every blank line removed. -/
theorem C1_replay_malformed_line_invariance :
    ∀ text : String,
      extractSessionHistoryUpdatesFromJsonl text =
        extractHistoryFromLines ((splitLogLines text).filter keepLogLine) := by
  intro text
  unfold extractSessionHistoryUpdatesFromJsonl extractHistoryFromLines
    extractReplayStateFromLines
  rw [← foldl_filter_skip processResumeLine keepLogLine
    (fun st l h => processResumeLine_skip st l h)]

theorem replayInv_initial (m : String) : ReplayInv m initialReplayState := by
  refine ⟨rfl, ?_, ?_⟩ <;> simp [initialReplayState]

theorem replayInv_pushResumeTextChunk (m : String) (st : ReplayState) (role : ChatRole)
    (text : String) (h : ReplayInv m st) :
    ReplayInv m (pushResumeTextChunk st role text) := by
  unfold pushResumeTextChunk
  by_cases ht : text.trim = ""
  · rw [if_pos ht]; exact h
  · rw [if_neg ht]
    cases role <;>
      exact ⟨by simp [List.countP_append, List.countP_cons, isUsageUpdate, h.1],
        h.2.1, h.2.2⟩

theorem replayInv_pushResumeToolUse (m : String) (st : ReplayState) (block : JRecord)
    (h : ReplayInv m st) : ReplayInv m (pushResumeToolUse st block) := by
  unfold pushResumeToolUse
  repeat' split
  all_goals first
    | exact h
    | exact ⟨by simp [List.countP_append, List.countP_cons, isUsageUpdate, h.1],
        h.2.1, h.2.2⟩

theorem replayInv_append_nonusage (m : String) (st : ReplayState) (u : SessionUpdate)
    (hu : isUsageUpdate u = false) (tc : List (String × ToolCall)) (h : ReplayInv m st) :
    ReplayInv m ⟨st.updates ++ [u], tc, st.emittedUsageMessageIds, st.usagePushes⟩ :=
  ⟨by simp [List.countP_append, List.countP_cons, hu, h.1], h.2.1, h.2.2⟩

theorem replayInv_pushResumeToolResult (m : String) (st : ReplayState) (block : JRecord)
    (h : ReplayInv m st) : ReplayInv m (pushResumeToolResult st block) := by
  unfold pushResumeToolResult
  cases hl : lookupField block "tool_use_id"
  case none => exact h
  case some v =>
    cases v
    case str toolUseId =>
      dsimp only
      by_cases hid : toolUseId = ""
      · rw [if_pos hid]; exact h
      · rw [if_neg hid]
        cases hb : toolCallsGet st.toolCalls toolUseId with
        | none =>
          dsimp only
          refine replayInv_append_nonusage m st _ ?_ _ h
          rfl
        | some b =>
          dsimp only
          refine replayInv_append_nonusage m st _ ?_ _ h
          rfl
    all_goals exact h

theorem buildUsage_isUsageUpdate (session : Option UsageSessionContext) (message : JRecord)
    (u : SessionUpdate)
    (h : (buildUsageUpdateFromResultForSession session message).1 = some u) :
    isUsageUpdate u = true := by
  unfold buildUsageUpdateFromResultForSession at h
  dsimp only at h
  split at h
  · cases h
  · have hu := Option.some.inj h
    rw [← hu]
    rfl

theorem replayInv_pushResumeUsageUpdate (m : String) (hm : m ≠ "") (st : ReplayState)
    (message : JRecord) (h : ReplayInv m st) :
    ReplayInv m (pushResumeUsageUpdate st message) := by
  unfold pushResumeUsageUpdate
  by_cases hseen :
      (match lookupField message "id" with
       | some (.str s) => s
       | _ => "") ≠ "" ∧
      st.emittedUsageMessageIds.contains
        (match lookupField message "id" with
         | some (.str s) => s
         | _ => "") = true
  · rw [if_pos hseen]; exact h
  · rw [if_neg hseen]
    cases hb : buildUsageUpdateFromResult message with
    | none => exact h
    | some u =>
      have husage : isUsageUpdate u = true :=
        buildUsage_isUsageUpdate none message u hb
      refine ⟨?_, ?_, ?_⟩
      · simp [List.countP_append, List.countP_cons, husage, h.1]
      · by_cases hmid :
            (match lookupField message "id" with
             | some (.str s) => s
             | _ => "") = m
        · rw [hmid]
          have hnotseen : ¬st.emittedUsageMessageIds.contains m = true := by
            intro hc
            exact hseen ⟨by rw [hmid]; exact hm, by rw [hmid]; exact hc⟩
          have hnotmem : m ∉ st.emittedUsageMessageIds := by
            intro hmem
            exact hnotseen (List.elem_eq_true_of_mem hmem)
          have hnotpush : m ∉ st.usagePushes := fun hp => hnotmem (h.2.2 hp)
          have hcount : st.usagePushes.count m = 0 := List.count_eq_zero.mpr hnotpush
          simp [List.count_append, hcount]
        · simp [List.count_append, List.count_singleton, hmid]
          exact h.2.1
      · intro hmem
        rcases List.mem_append.mp hmem with hmem | hmem
        · have hold := h.2.2 hmem
          by_cases hmid :
              (match lookupField message "id" with
               | some (.str s) => s
               | _ => "") = ""
          · simp [hmid]
            exact hold
          · simp [hmid]
            exact Or.inl hold
        · have hmid : (match lookupField message "id" with
              | some (.str s) => s
              | _ => "") = m := by
            have hmem2 := hmem
            simp at hmem2
            exact hmem2.symm
          rw [hmid]
          have : ¬m = "" := hm
          simp [this]

theorem replayInv_processResumeContentItem (m : String) (st : ReplayState)
    (role : ChatRole) (item : JsonValue) (h : ReplayInv m st) :
    ReplayInv m (processResumeContentItem st role item) := by
  unfold processResumeContentItem
  cases ha : asRecordOrNull item
  case none => exact h
  case some block =>
    dsimp only
    repeat' split
    all_goals first
      | exact h
      | exact replayInv_pushResumeTextChunk m st role _ h
      | exact replayInv_pushResumeToolUse m st block h
      | exact replayInv_pushResumeToolResult m st block h

theorem replayInv_foldl_content (m : String) (role : ChatRole) (items : List JsonValue) :
    ∀ st : ReplayState, ReplayInv m st →
      ReplayInv m (items.foldl (fun s item => processResumeContentItem s role item) st) := by
  induction items with
  | nil => intro st h; exact h
  | cons a rest ih =>
    intro st h
    exact ih _ (replayInv_processResumeContentItem m st role a h)

theorem replayInv_processResumeMessage (m : String) (hm : m ≠ "") (st : ReplayState)
    (message : JRecord) (h : ReplayInv m st) :
    ReplayInv m (processResumeMessage st message) := by
  unfold processResumeMessage
  cases hr : roleOfMessage message
  case none => exact h
  case some role =>
    dsimp only
    exact replayInv_pushResumeUsageUpdate m hm _ message
      (replayInv_foldl_content m role _ st h)

theorem replayInv_processResumeRecord (m : String) (hm : m ≠ "") (st : ReplayState)
    (record : JRecord) (h : ReplayInv m st) :
    ReplayInv m (processResumeRecord st record) := by
  unfold processResumeRecord
  generalize persistedMessageCandidates record = msgs
  induction msgs generalizing st with
  | nil => exact h
  | cons a rest ih =>
    exact ih _ (replayInv_processResumeMessage m hm st a h)

theorem replayInv_processResumeLine (m : String) (hm : m ≠ "") (st : ReplayState)
    (rawLine : String) (h : ReplayInv m st) :
    ReplayInv m (processResumeLine st rawLine) := by
  unfold processResumeLine
  cases hr : logLineRecord rawLine
  case none => exact h
  case some record => exact replayInv_processResumeRecord m hm st record h

theorem replayInv_extract (m : String) (hm : m ≠ "") (lines : List String) :
    ReplayInv m (extractReplayStateFromLines lines) := by
  unfold extractReplayStateFromLines
  generalize hinit : initialReplayState = st0
  have h0 : ReplayInv m st0 := hinit ▸ replayInv_initial m
  clear hinit
  induction lines generalizing st0 with
  | nil => exact h0
  | cons a rest ih =>
    exact ih _ (replayInv_processResumeLine m hm st0 a h0)

/-- C3: within one invocation of the replay engine, at most one usage
update is attributed to any given non-empty message identifier, however
many log lines repeat that identifier; the attribution trace counts
exactly the usage updates present in the output. -/
theorem C3_usage_dedup_per_message_id :
    ∀ (lines : List String) (m : String), m ≠ "" →
      (extractHistoryFromLines lines).countP isUsageUpdate =
        (extractReplayStateFromLines lines).usagePushes.length ∧
      (extractReplayStateFromLines lines).usagePushes.count m ≤ 1 := by
  intro lines m hm
  have h := replayInv_extract m hm lines
  exact ⟨h.1, h.2.1⟩

theorem toolCallsGet_set (mp : List (String × ToolCall)) (k : String) (v : ToolCall) :
    toolCallsGet (toolCallsSet mp k v) k = some v := by
  induction mp with
  | nil => simp [toolCallsSet, toolCallsGet]
  | cons p rest ih =>
    unfold toolCallsSet
    by_cases hk : p.1 = k
    · rw [if_pos hk]
      simp [toolCallsGet, hk]
    · rw [if_neg hk]
      have hba : (p.1 == k) = false := beq_eq_false_iff_ne.mpr hk
      unfold toolCallsGet at ih ⊢
      simp only [List.find?_cons, hba, cond_false]
      exact ih

/-- C4: a tool-result block with a non-empty tool_use_id always emits a
tool_call_update carrying the result fields, even when no matching open
call exists; with no match the rest of the replay state is unchanged, and
with a match the stored call merges status, raw output and content while
keeping its identity fields. -/
theorem C4_tool_result_always_emits :
    ∀ (st : ReplayState) (block : JRecord) (toolUseId : String),
      lookupField block "tool_use_id" = some (.str toolUseId) →
      toolUseId ≠ "" →
      (let fields := buildToolResultFields (jsTruthy (lookupField block "is_error"))
          (lookupField block "content") (toolCallsGet st.toolCalls toolUseId)
       (pushResumeToolResult st block).updates =
          st.updates ++ [.tool_call_update toolUseId fields] ∧
       (toolCallsGet st.toolCalls toolUseId = none →
         (pushResumeToolResult st block).toolCalls = st.toolCalls ∧
         (pushResumeToolResult st block).emittedUsageMessageIds =
           st.emittedUsageMessageIds ∧
         (pushResumeToolResult st block).usagePushes = st.usagePushes) ∧
       (∀ b : ToolCall, toolCallsGet st.toolCalls toolUseId = some b →
         ∃ b' : ToolCall,
           toolCallsGet (pushResumeToolResult st block).toolCalls toolUseId = some b' ∧
           b'.status = fields.status.getD b.status ∧
           b'.raw_output = (if jsTruthy fields.raw_output then fields.raw_output
                            else b.raw_output) ∧
           b'.content = (if jsTruthy fields.content then fields.content else b.content) ∧
           b'.id = b.id ∧ b'.name = b.name ∧ b'.input = b.input)) := by
  intro st block toolUseId hlook hne
  unfold pushResumeToolResult
  rw [hlook]
  dsimp only
  rw [if_neg hne]
  cases hb : toolCallsGet st.toolCalls toolUseId with
  | none =>
    dsimp only
    refine ⟨rfl, fun _ => ⟨rfl, rfl, rfl⟩, ?_⟩
    intro b hcontr
    cases hcontr
  | some b0 =>
    dsimp only
    refine ⟨rfl, ?_, ?_⟩
    · intro hcontr
      cases hcontr
    · intro b hbeq
      have hb0 : b0 = b := Option.some.inj hbeq
      subst hb0
      refine ⟨_, toolCallsGet_set st.toolCalls toolUseId _, ?_, ?_, ?_, ?_, ?_, ?_⟩
      all_goals
        by_cases hro : jsTruthy (buildToolResultFields
            (jsTruthy (lookupField block "is_error")) (lookupField block "content")
            (some b0)).raw_output = true <;>
        by_cases hco : jsTruthy (buildToolResultFields
            (jsTruthy (lookupField block "is_error")) (lookupField block "content")
            (some b0)).content = true <;>
        simp [hro, hco]

/-- Witness for C2: the first observation of a concrete total. -/
theorem C2_usage_turn_cost_deltas_witness :
    numberField (mkTotalCostMessage ((2 : ℚ)/100)) ["total_cost_usd", "totalCostUsd"] =
        some ((2 : ℚ)/100) ∧
    (buildUsageUpdateFromResultForSession (some ⟨none, none⟩)
        (mkTotalCostMessage ((2 : ℚ)/100))).2 = some ⟨none, some ((2 : ℚ)/100)⟩ :=
  ⟨rfl, (C2_usage_turn_cost_deltas.1 ⟨none, none⟩ (mkTotalCostMessage ((2 : ℚ)/100))
      ((2 : ℚ)/100) rfl).1⟩

/-- Witness for C3: a concrete log repeating one message identifier. -/
theorem C3_usage_dedup_per_message_id_witness :
    ("m1" : String) ≠ "" ∧
    (extractReplayStateFromLines
        ["\x7b\"message\":\x7b\"role\":\"assistant\",\"id\":\"m1\",\"usage\":\x7b\"input_tokens\":5\x7d,\"content\":[]\x7d\x7d",
         "\x7b\"message\":\x7b\"role\":\"assistant\",\"id\":\"m1\",\"usage\":\x7b\"input_tokens\":5\x7d,\"content\":[]\x7d\x7d"]).usagePushes.count
      "m1" ≤ 1 :=
  ⟨by decide, (C3_usage_dedup_per_message_id
      ["\x7b\"message\":\x7b\"role\":\"assistant\",\"id\":\"m1\",\"usage\":\x7b\"input_tokens\":5\x7d,\"content\":[]\x7d\x7d",
       "\x7b\"message\":\x7b\"role\":\"assistant\",\"id\":\"m1\",\"usage\":\x7b\"input_tokens\":5\x7d,\"content\":[]\x7d\x7d"]
      "m1" (by decide)).2⟩

/-- Witness for C4: a concrete tool-result block with a stored call. -/
theorem C4_tool_result_always_emits_witness :
    lookupField [("tool_use_id", JsonValue.str "t1"), ("content", JsonValue.str "ok")]
        "tool_use_id" = some (.str "t1") ∧
    ("t1" : String) ≠ "" ∧
    (pushResumeToolResult ⟨[], [("t1", createToolCall "t1" "Bash" [])], [], []⟩
        [("tool_use_id", JsonValue.str "t1"), ("content", JsonValue.str "ok")]).updates =
      ([] : List SessionUpdate) ++
        [SessionUpdate.tool_call_update "t1"
          (buildToolResultFields
            (jsTruthy (lookupField
              [("tool_use_id", JsonValue.str "t1"), ("content", JsonValue.str "ok")]
              "is_error"))
            (lookupField
              [("tool_use_id", JsonValue.str "t1"), ("content", JsonValue.str "ok")]
              "content")
            (toolCallsGet [("t1", createToolCall "t1" "Bash" [])] "t1"))] :=
  ⟨rfl, by decide,
    (C4_tool_result_always_emits ⟨[], [("t1", createToolCall "t1" "Bash" [])], [], []⟩
      [("tool_use_id", JsonValue.str "t1"), ("content", JsonValue.str "ok")] "t1"
      rfl (by decide)).1⟩

/-- Witness for C6 at a concrete session-scoped suggestion list. -/
theorem C6_permission_options_shape_witness :
    (permissionOptionsFromSuggestions
        (some [PermissionUpdate.addRules [] "allow" "session"])).length = 3 :=
  (C6_permission_options_shape.1 (some [PermissionUpdate.addRules [] "allow" "session"])).1

/-- Witness for C7: a concrete unmapped option id. -/
theorem C7_permission_result_total_witness :
    ("reject_once" : String) ≠ "allow_once" ∧
    permissionResultFromOutcome (.selected "reject_once") "t1" [] none none =
      .deny "Permission denied" "t1" :=
  ⟨by decide, (C7_permission_result_total "t1" [] none none).2.2.1 "reject_once"
      (by decide) (by decide) (by decide)⟩

/-- Witness for C8: the synthesized session fallback rule for a concrete
tool name with no suggestions. -/
theorem C8_allow_session_vs_allow_always_witness :
    ((none : Option (List PermissionUpdate)).getD []).filter
        (fun u => !isPersistentDestination u.destination) = [] ∧
    ("Bash" : String) ≠ "" ∧
    permissionResultFromOutcome (.selected "allow_session") "t1" [] none (some "Bash") =
      .allow [] (some [PermissionUpdate.addRules [⟨"Bash", none⟩] "allow" "session"]) "t1" :=
  ⟨rfl, by decide,
    (C8_allow_session_vs_allow_always "t1" [] none (some "Bash")).2.1 rfl "Bash" rfl
      (by decide)⟩

/-- Witness for C9: a concrete derived title obeys the length bound. -/
theorem C9_title_truncation_witness :
    firstUserMessageTitleFromRecord
        [("type", JsonValue.str "user"),
         ("message", JsonValue.obj
           [("role", JsonValue.str "user"),
            ("content", JsonValue.arr
              [JsonValue.obj [("type", JsonValue.str "text"),
                              ("text", JsonValue.str "hi")]])])] = some "hi" ∧
    ("hi" : String).data.length ≤ 180 :=
  ⟨rfl, C9_title_truncation.2.1
      [("type", JsonValue.str "user"),
       ("message", JsonValue.obj
         [("role", JsonValue.str "user"),
          ("content", JsonValue.arr
            [JsonValue.obj [("type", JsonValue.str "text"),
                            ("text", JsonValue.str "hi")]])])] "hi" rfl⟩

/-- Witness for C10: a concrete numeric request_id is dropped. -/
theorem C10_non_string_request_id_dropped_witness :
    lookupField [("command", JsonValue.str "shutdown"), ("request_id", JsonValue.num 42)]
        "request_id" = some (JsonValue.num 42) ∧
    requestIdOfEnvelope [("command", JsonValue.str "shutdown"),
        ("request_id", JsonValue.num 42)] = none :=
  ⟨rfl, (C10_non_string_request_id_dropped.1
      [("command", JsonValue.str "shutdown"), ("request_id", JsonValue.num 42)]
      (JsonValue.num 42) rfl trivial).1⟩
